import Mathlib

/-!
Verification development for the rez-2.0 trading agent.

The development shallowly embeds the two core components of the repository:

* the decision protocol engine, `TradingAgent._decide` together with its
  nested helper `_sanitize_output` (src/src/agent/decision_maker.py,
  lines 47-472), and
* the execution and reconciliation engine, the per-decision body of
  `run_loop` (src/src/main.py, lines 230-257 and 448-592).

Python's untyped JSON dictionaries are modelled by the inductive `Json`
below; machine floats are modelled by `ℚ` (all the arithmetic the claims
touch is exact: division, absolute value, comparison against the literal
12).  External collaborators (the model provider transport, the sanitizer
model, the exchange gateway) are modelled as oracle inputs: the embedding
represents each provider reply by the data the code actually branches
on.  In particular a raw text reply is represented together with the
outcome of `json.loads` on it, since a JSON text parser is not embedded
and the code inspects nothing else about the text.  Fallible code paths
(exceptions) are explicit: `Except`-style results carry the partial state
at the raise point.
-/

set_option maxRecDepth 4096

namespace Rez

/-- Untyped JSON values, the data model of the Python dictionaries the agent
passes around.  Numbers are modelled by `ℚ`. -/
inductive Json where
  | null : Json
  | bool (b : Bool) : Json
  | num (q : ℚ) : Json
  | str (s : String) : Json
  | arr (items : List Json) : Json
  | obj (fields : List (String × Json)) : Json

/-- Python truthiness (`bool(x)`) for JSON values: `None`, `False`, `0`,
`""`, `[]` and `{}` are falsy, everything else truthy. -/
def Json.truthy : Json → Bool
  | .null => false
  | .bool b => b
  | .num q => q != 0
  | .str s => s != ""
  | .arr l => !l.isEmpty
  | .obj l => !l.isEmpty

/-- `d.get(k)` on a JSON object: first binding of the key, `none` for
missing keys and for non-objects. -/
def jLookup (j : Json) (k : String) : Option Json :=
  match j with
  | .obj fields => fields.lookup k
  | _ => none

/-- Truthiness of `d.get(k)`-style results (`None` for a missing key). -/
def optTruthy (o : Option Json) : Bool :=
  match o with
  | none => false
  | some v => v.truthy

/-- `parsed.get(k, "") or ""` (decision_maker.py lines 409-410): the stored
value if present and truthy, the empty string otherwise. -/
def getOrEmptyJson (j : Json) (k : String) : Json :=
  let v := (jLookup j k).getD (Json.str "")
  if v.truthy then v else Json.str ""

/-- Whether an optional payload is a Python `dict`
(`isinstance(x, dict)` on `message.get("parsed")`). -/
def isDictOpt : Option Json → Bool
  | some (Json.obj _) => true
  | _ => false

/-- Whether a JSON value is the literal string `"null"` (the legacy
positional-array check `item[3] != "null"`). -/
def isStrNull : Json → Bool
  | .str s => s == "null"
  | _ => false

/-- A simple decimal parser standing in for CPython's `float(str)`:
optional sign, digits, optional fractional part.  (Exponent forms and
surrounding whitespace, which no claim exercises, are not accepted.) -/
def parseDecimal (s : String) : Option ℚ :=
  let core : String → Option ℚ := fun t =>
    match t.splitOn "." with
    | [a] => (a.toNat?).map (fun n => (n : ℚ))
    | [a, b] =>
      match a.toNat?, b.toNat? with
      | some n, some m => some ((n : ℚ) + (m : ℚ) / ((10 : ℚ) ^ b.length))
      | _, _ => none
    | _ => none
  if s.startsWith "-" then (core (s.drop 1)).map (fun q => -q)
  else if s.startsWith "+" then core (s.drop 1)
  else core s

/-- Python `float(x)` on a JSON value; `none` models the raised
`ValueError`/`TypeError` on unconvertible values. -/
def pyFloat : Json → Option ℚ
  | .num q => some q
  | .bool b => some (if b then 1 else 0)
  | .str s => parseDecimal s
  | _ => none

/-- A minimal `json.dumps`: only its stringness matters to the embedding
(the string is fed to the sanitizer oracle, decision_maker.py lines 404
and 436); numeric formatting is simplified to `toString`. -/
def jsonDumps : Json → String
  | .null => "null"
  | .bool b => if b then "true" else "false"
  | .num q => toString q
  | .str s => "\"" ++ s ++ "\""
  | .arr items => "[" ++ String.intercalate ", " (items.attach.map (fun x => jsonDumps x.1)) ++ "]"
  | .obj fields =>
      "\x7b" ++ String.intercalate ", "
        (fields.attach.map (fun kv => "\"" ++ kv.1.1 ++ "\": " ++ jsonDumps kv.1.2)) ++ "\x7d"
decreasing_by
  · have := List.sizeOf_lt_of_mem x.2
    simp only [Json.arr.sizeOf_spec]
    omega
  · have h1 := List.sizeOf_lt_of_mem kv.2
    have h2 : sizeOf kv.1.2 < sizeOf kv.1 := by
      obtain ⟨a, b⟩ := kv.1
      simp only [Prod.mk.sizeOf_spec]
      omega
    simp only [Json.obj.sizeOf_spec]
    omega

/-- One assistant message as the transport layer hands it to `_decide`
(decision_maker.py lines 356-360 and 394-399).  `hasToolCalls` is the
truth value of `bool(message.get("tool_calls") or [])`; `parsed` is the
optional structured payload; `content` is the optional raw text paired
with the outcome of `json.loads` on it (`none` models a parse failure),
since the code branches on nothing else about the text. -/
structure ModelMessage where
  hasToolCalls : Bool
  parsed : Option Json
  content : Option (String × Option Json)

/-- One reply of the model provider to `_post`: either a successful
message, or an HTTP error summarised by the data the handler at
decision_maker.py lines 336-354 inspects — the status code, whether the
error is the xAI tool-schema rejection (`status 422`, provider name
starting `xai`, `"deserialize"` in the raw metadata), and whether the
serialized error mentions `response_format`/`structured`. -/
inductive Reply where
  | ok (msg : ModelMessage)
  | httpErr (status : Nat) (xaiToolReject : Bool) (mentionsStructured : Bool)

/-- The sanitizer model's reply (decision_maker.py lines 253-260), same
representation as `ModelMessage` minus tool calls.  The whole sanitize
call is an oracle `String → Option SanMsg`; `none` models the
`requests.RequestException`/decoding exceptions caught at line 268. -/
structure SanMsg where
  parsed : Option Json
  content : Option (String × Option Json)

/-- The empty fallback batch `_sanitize_output` returns when it cannot
extract decisions (decision_maker.py lines 267 and 270). -/
def emptySanBatch : Json :=
  Json.obj [("reasoning", Json.str ""), ("summary", Json.str ""),
    ("trade_decisions", Json.arr [])]

/-- The content fallback of `_sanitize_output` (decision_maker.py lines
259-267): `content = msg.get("content") or "[]"`, then `json.loads`; only
a dict containing `"trade_decisions"` is returned, otherwise the empty
batch (note `"[]"` loads to a list, hence the empty batch for absent or
empty content). -/
def sanContent (c : Option (String × Option Json)) : Json :=
  match c with
  | none => emptySanBatch
  | some (s, p) =>
    if s = "" then emptySanBatch
    else
      match p with
      | some (Json.obj fields) =>
        if (fields.lookup "trade_decisions").isSome then Json.obj fields else emptySanBatch
      | _ => emptySanBatch

/-- `_sanitize_output`'s handling of the sanitizer reply (decision_maker.py
lines 253-270): prefer a parsed dict containing `"trade_decisions"`, then
the content fallback; any transport or decode exception yields the empty
batch. -/
def sanitizeOutput (resp : Option SanMsg) : Json :=
  match resp with
  | none => emptySanBatch
  | some m =>
    match m.parsed with
    | some (Json.obj fields) =>
      if (fields.lookup "trade_decisions").isSome then Json.obj fields
      else sanContent m.content
    | _ => sanContent m.content

/-- One synthetic hold decision of a failsafe batch (decision_maker.py
lines 449-457 and 463-471). -/
def holdDecision (a rationale : String) : Json :=
  Json.obj [("asset", Json.str a), ("action", Json.str "hold"),
    ("allocation_usd", Json.num 0), ("tp_price", Json.null),
    ("sl_price", Json.null), ("exit_plan", Json.str ""),
    ("rationale", Json.str rationale)]

/-- The parse-error failsafe batch (decision_maker.py lines 446-458): one
hold decision per requested asset, rationale "Parse error". -/
def parseErrorFailsafe (assets : List String) : Json :=
  Json.obj [("reasoning", Json.str "Parse error"),
    ("summary", Json.str "Having trouble processing the market data. Staying flat until next cycle."),
    ("trade_decisions", Json.arr (assets.map (fun a => holdDecision a "Parse error")))]

/-- The tool-loop-cap failsafe batch (decision_maker.py lines 460-472):
one hold decision per requested asset, rationale "tool loop cap". -/
def toolLoopCapFailsafe (assets : List String) : Json :=
  Json.obj [("reasoning", Json.str "tool loop cap"),
    ("summary", Json.str "Analysis taking too long. Staying flat until next cycle."),
    ("trade_decisions", Json.arr (assets.map (fun a => holdDecision a "tool loop cap")))]

/-- How `_decide` can fail past its boundary: a re-raised transport error
(decision_maker.py line 354), or the `NameError` raised by the logging
call at line 441 when the except branch is reached while the local
`content` was never bound (possible only when the payload came from the
structured `parsed` field and legacy-array normalization raised). -/
inductive DecideError where
  | transport : DecideError
  | nameError : DecideError
deriving DecidableEq

/-- `dict.setdefault k v` (decision_maker.py lines 417-421): insert the
default at the end if the key is absent. -/
def setDefault (fields : List (String × Json)) (k : String) (v : Json) :
    List (String × Json) :=
  if (fields.lookup k).isSome then fields else fields ++ [(k, v)]

/-- Per-decision normalization of a dict item (decision_maker.py lines
416-422): coerce the optional fields to defaults. -/
def normalizeDict (fields : List (String × Json)) : List (String × Json) :=
  setDefault (setDefault (setDefault (setDefault (setDefault fields
    "allocation_usd" (Json.num 0)) "tp_price" Json.null) "sl_price" Json.null)
    "exit_plan" (Json.str "")) "rationale" (Json.str "")

/-- An optional rational back to JSON (`None` ↦ `null`). -/
def optNumJson : Option ℚ → Json
  | none => Json.null
  | some q => Json.num q

/-- Per-decision normalization of a legacy positional array of length ≥ 7
(decision_maker.py lines 423-432); `none` models a `float()` conversion
raising. -/
def normalizeLegacy (items : List Json) : Option Json :=
  match items with
  | a0 :: a1 :: a2 :: a3 :: a4 :: a5 :: a6 :: _ =>
    let alloc? : Option ℚ := if a2.truthy then pyFloat a2 else some 0
    let tp? : Option (Option ℚ) :=
      if a3.truthy && !(isStrNull a3) then (pyFloat a3).map some else some none
    let sl? : Option (Option ℚ) :=
      if a4.truthy && !(isStrNull a4) then (pyFloat a4).map some else some none
    match alloc?, tp?, sl? with
    | some al, some tp, some sl =>
      some (Json.obj [("asset", a0), ("action", a1),
        ("allocation_usd", Json.num al), ("tp_price", optNumJson tp),
        ("sl_price", optNumJson sl), ("exit_plan", a5), ("rationale", a6)])
    | _, _, _ => none
  | _ => none

/-- Normalization of the whole `trade_decisions` list (decision_maker.py
lines 414-432): dict items are kept with defaults filled in, positional
arrays of length ≥ 7 are converted, everything else is silently dropped;
`none` models a conversion exception aborting the loop. -/
def normalizeDecisions : List Json → Option (List Json)
  | [] => some []
  | item :: rest =>
    match item with
    | Json.obj fields =>
      (normalizeDecisions rest).map (fun r => Json.obj (normalizeDict fields) :: r)
    | Json.arr its =>
      if its.length ≥ 7 then
        match normalizeLegacy its with
        | some jd => (normalizeDecisions rest).map (fun r => jd :: r)
        | none => none
      else normalizeDecisions rest
    | _ => normalizeDecisions rest

/-- The except branch of the terminal parse (decision_maker.py lines
440-458): try the sanitizer on the raw content; if it produced a truthy
`trade_decisions`, return it, else the parse-error failsafe. -/
def exceptBranch (san : String → Option SanMsg) (assets : List String)
    (content : String) : Json :=
  let sanitized := sanitizeOutput (san content)
  if optTruthy (jLookup sanitized "trade_decisions") then sanitized
  else parseErrorFailsafe assets

/-- Processing of a successfully obtained payload (decision_maker.py lines
402-439).  `contentOpt` is the raw text when the payload came from
`json.loads` (and `none` when it came from the structured `parsed` field,
in which case the except-branch logging raises `NameError`). -/
def processParsed (san : String → Option SanMsg) (assets : List String)
    (parsed : Json) (contentOpt : Option String) : Except DecideError Json :=
  match parsed with
  | Json.obj fields =>
    let reasoningVal := getOrEmptyJson (Json.obj fields) "reasoning"
    let summaryVal := getOrEmptyJson (Json.obj fields) "summary"
    match fields.lookup "trade_decisions" with
    | some (Json.arr items) =>
      match normalizeDecisions items with
      | some normd =>
        .ok (Json.obj [("reasoning", reasoningVal), ("summary", summaryVal),
          ("trade_decisions", Json.arr normd)])
      | none =>
        match contentOpt with
        | some c => .ok (exceptBranch san assets c)
        | none => .error .nameError
    | _ =>
      let sanitized := sanitizeOutput (san (contentOpt.getD (jsonDumps parsed)))
      if optTruthy (jLookup sanitized "trade_decisions") then .ok sanitized
      else .ok (Json.obj [("reasoning", reasoningVal), ("summary", summaryVal),
        ("trade_decisions", Json.arr [])])
  | _ =>
    let sanitized := sanitizeOutput (san (contentOpt.getD (jsonDumps parsed)))
    if optTruthy (jLookup sanitized "trade_decisions") then .ok sanitized
    else .ok (Json.obj [("reasoning", Json.str ""), ("summary", Json.str ""),
      ("trade_decisions", Json.arr [])])

/-- `content = message.get("content") or "{}"` (decision_maker.py line
399): a missing or empty content is replaced by the text `"{}"`, which
parses to the empty dict. -/
def effContent (c : Option (String × Option Json)) : String × Option Json :=
  match c with
  | none => ("\x7b\x7d", some (Json.obj []))
  | some (s, p) => if s = "" then ("\x7b\x7d", some (Json.obj [])) else (s, p)

/-- The terminal parse of a reply without pending tool calls
(decision_maker.py lines 394-458): prefer the structured `parsed` dict;
otherwise take `content or "{}"` and `json.loads` it, with a load failure
going to the except branch. -/
def terminalParse (san : String → Option SanMsg) (assets : List String)
    (m : ModelMessage) : Except DecideError Json :=
  match m.parsed with
  | some (Json.obj fields) => processParsed san assets (Json.obj fields) none
  | _ =>
    match (effContent m.content).2 with
    | some j => processParsed san assets j (some (effContent m.content).1)
    | none => .ok (exceptBranch san assets (effContent m.content).1)

/-- The round-trip loop of `_decide` (decision_maker.py lines 307-458):
at most 6 iterations, each either consuming an HTTP error (capability
downgrade of tools or structured outputs, else a fatal transport error),
or a tool-carrying reply (continue), or a terminal reply (parse).  Fuel
exhaustion returns the tool-loop-cap failsafe (lines 460-472).
`replies i` is the provider's answer to the i-th POST. -/
def decideLoop (san : String → Option SanMsg) (assets : List String)
    (replies : Nat → Reply) :
    Nat → Nat → Bool → Bool → Except DecideError Json
  | _, 0, _, _ => .ok (toolLoopCapFailsafe assets)
  | i, fuel + 1, allowTools, allowStructured =>
    match replies i with
    | .httpErr status xai mstruct =>
      if status == 422 && xai && allowTools then
        decideLoop san assets replies (i + 1) fuel false allowStructured
      else if allowStructured && (mstruct || status == 400 || status == 422) then
        decideLoop san assets replies (i + 1) fuel allowTools false
      else .error .transport
    | .ok m =>
      if allowTools && m.hasToolCalls then
        decideLoop san assets replies (i + 1) fuel allowTools allowStructured
      else terminalParse san assets m

/-- `decide_trade`/`_decide` (decision_maker.py lines 35-472): run the
round-trip loop with both capabilities enabled and 6 rounds of fuel. -/
def decideTrade (san : String → Option SanMsg) (assets : List String)
    (replies : Nat → Reply) : Except DecideError Json :=
  decideLoop san assets replies 0 6 true true

/-- One exchange position as `state['positions']` reports it: the coin
and the signed size `szi`. -/
structure Position where
  coin : String
  szi : ℚ
deriving DecidableEq

/-- One canonical trade decision as the execution loop reads it from a
batch element (`output.get`/`output[...]` in main.py lines 450-589). -/
structure TradeDecision where
  asset : String
  action : String
  allocation_usd : ℚ
  tp_price : Option ℚ
  sl_price : Option ℚ
  exit_plan : String
  rationale : String
deriving DecidableEq

/-- One entry of the Managed Trade set `active_trades` (main.py lines
545-554; the wall-clock `opened_at` timestamp is not modelled). -/
structure ActiveTrade where
  asset : String
  is_long : Bool
  amount : ℚ
  entry_price : ℚ
  tp_oid : Option Nat
  sl_oid : Option Nat
  exit_plan : String
deriving DecidableEq

/-- One market order submitted to the exchange gateway
(`place_buy_order`/`place_sell_order`, main.py line 499). -/
structure Order where
  coin : String
  isBuy : Bool
  amount : ℚ
deriving DecidableEq

/-- Kind of protective trigger order. -/
inductive TriggerKind where
  | takeProfit : TriggerKind
  | stopLoss : TriggerKind
deriving DecidableEq

/-- One protective trigger order submitted to the exchange gateway
(`place_take_profit`/`place_stop_loss`, main.py lines 515 and 520). -/
structure TriggerOrder where
  kind : TriggerKind
  coin : String
  isBuy : Bool
  amount : ℚ
  price : ℚ
deriving DecidableEq

/-- One journal (diary.jsonl) record: a trade entry (main.py lines
560-578), a hold entry (lines 582-589), or a reconciliation entry (lines
248-255).  Wall-clock timestamps and the stringified raw order result are
not modelled. -/
inductive DiaryEntry where
  | trade (asset action : String) (allocation_usd amount entry_price : ℚ)
      (tp_price : Option ℚ) (tp_oid : Option Nat) (sl_price : Option ℚ)
      (sl_oid : Option Nat) (exit_plan rationale : String) (filled : Bool)
  | hold (asset rationale : String)
  | reconcileClose (asset reason : String)
deriving DecidableEq

/-- The exchange gateway as an oracle: whether each call for an asset
raises, the order ids the fills report, and whether the recent-fills
check finds a fill. -/
structure ExchangeOracle where
  orderFails : String → Bool
  tpFails : String → Bool
  slFails : String → Bool
  tpOid : String → Option Nat
  slOid : String → Option Nat
  filled : String → Bool

/-- The mutable state the execution loop owns: the Managed Trade set, the
append-only journal, the exchange side effects issued so far, the event
log, and the just-traded tracking set. -/
structure ExecState where
  active_trades : List ActiveTrade
  diary : List DiaryEntry
  orders : List Order
  triggers : List TriggerOrder
  events : List String
  just_traded : List String
deriving DecidableEq

/-- Outcome of one decision's body: normal completion, or an exception at
some raise point; both carry the state as mutated up to that point. -/
inductive StepResult where
  | ok (s : ExecState)
  | err (s : ExecState)
deriving DecidableEq

/-- The tail of a buy/sell execution from the market-order submission on
(main.py lines 497-578): mark the asset just-traded, place the market
order, place truthy TP/SL triggers, rewrite the Managed Trade set, and
append the diary entry.  Each exchange call may raise (`.err`), carrying
the partial state; `preEvents` is the event log accumulated before this
point and `shouldTrack` is false exactly on the close path (lines
533-542). -/
def afterOrder (ex : ExchangeOracle) (s : ExecState) (preEvents : List String)
    (d : TradeDecision) (isBuy : Bool) (alloc amount price : ℚ)
    (branchMsg : String) (shouldTrack : Bool) : StepResult :=
  let s1 : ExecState :=
    { s with
      events := preEvents ++ [branchMsg],
      just_traded := s.just_traded ++ [d.asset] }
  if ex.orderFails d.asset then .err s1
  else
    let s2 := { s1 with orders := s1.orders ++ [⟨d.asset, isBuy, amount⟩] }
    let tpOn := d.tp_price.getD 0 != 0
    if tpOn && ex.tpFails d.asset then .err s2
    else
      let tpOid := if tpOn then ex.tpOid d.asset else none
      let s3 := if tpOn then
          { s2 with
            triggers := s2.triggers ++ [⟨.takeProfit, d.asset, isBuy, amount, d.tp_price.getD 0⟩],
            events := s2.events ++ ["TP placed " ++ d.asset] }
        else s2
      let slOn := d.sl_price.getD 0 != 0
      if slOn && ex.slFails d.asset then .err s3
      else
        let slOid := if slOn then ex.slOid d.asset else none
        let s4 := if slOn then
            { s3 with
              triggers := s3.triggers ++ [⟨.stopLoss, d.asset, isBuy, amount, d.sl_price.getD 0⟩],
              events := s3.events ++ ["SL placed " ++ d.asset] }
          else s3
        let s5 := { s4 with active_trades := s4.active_trades.filter (fun t => t.asset != d.asset) }
        let s6 := if shouldTrack then
            { s5 with active_trades := s5.active_trades ++
                [⟨d.asset, isBuy, amount, price, tpOid, slOid, d.exit_plan⟩] }
          else { s5 with events := s5.events ++ ["Position closed for " ++ d.asset] }
        let s7 :=
          { s6 with
            events := s6.events ++ ["Executed " ++ d.action ++ " " ++ d.asset] ++
              (if d.rationale = "" then [] else ["Post-trade rationale for " ++ d.asset]) }
        .ok
          { s7 with
            diary := s7.diary ++
              [DiaryEntry.trade d.asset d.action alloc amount price d.tp_price tpOid
                d.sl_price slOid d.exit_plan d.rationale (ex.filled d.asset)] }

/-- The body of one iteration of the per-decision execution loop (main.py
lines 449-589), up to but excluding the surrounding `except` clause.
Unrequested or empty assets are skipped (lines 450-452); the price is
`asset_prices.get(asset, 0)` (line 454); buy/sell decisions with a
non-positive allocation are skipped (lines 461-464), the allocation is
clamped up to 12 (lines 466-468), the amount is `alloc/price` on the
open/add paths — `.err` at a zero price models the `ZeroDivisionError` —
and `|szi|` on the close path (lines 477-494); any other action journals
a hold (lines 579-589). -/
def executeDecisionBody (assets : List String) (positions : List Position)
    (prices : String → Option ℚ) (ex : ExchangeOracle) (s : ExecState)
    (d : TradeDecision) : StepResult :=
  if d.asset = "" ∨ d.asset ∉ assets then .ok s
  else
    let price := (prices d.asset).getD 0
    let ratEvents : List String :=
      if d.rationale = "" then [] else ["Decision rationale for " ++ d.asset]
    if d.action = "buy" ∨ d.action = "sell" then
      let isBuy := d.action == "buy"
      if d.allocation_usd ≤ 0 then
        .ok
          { s with
            events := s.events ++ ratEvents ++
              ["Holding " ++ d.asset ++ " zero or negative allocation"] }
      else
        let alloc := if d.allocation_usd < 12 then (12 : ℚ) else d.allocation_usd
        let bumpEvents : List String :=
          if d.allocation_usd < 12 then ["Bumped allocation to meet exchange minimum"] else []
        let pre := s.events ++ ratEvents ++ bumpEvents
        match positions.find? (fun p => p.coin == d.asset) with
        | some p =>
          let existingIsLong : Bool := 0 < p.szi
          if (isBuy && existingIsLong) || (!isBuy && !existingIsLong) then
            if price = 0 then .err { s with events := pre }
            else afterOrder ex s pre d isBuy alloc (alloc / price) price
              ("Adding to existing " ++ d.asset ++ " position") true
          else
            afterOrder ex s pre d isBuy alloc (|p.szi|) price
              ("Closing existing " ++ d.asset ++ " position") false
        | none =>
          if price = 0 then .err { s with events := pre }
          else afterOrder ex s pre d isBuy alloc (alloc / price) price
            ("Opening new " ++ d.asset ++ " position") true
    else
      .ok
        { s with
          events := s.events ++ ratEvents ++ ["Hold " ++ d.asset],
          diary := s.diary ++ [DiaryEntry.hold d.asset d.rationale] }

/-- One iteration of the per-decision execution loop including the
`except` clause (main.py lines 590-592): an exception is caught and an
execution-error event logged, keeping the partial state. -/
def executeDecision (assets : List String) (positions : List Position)
    (prices : String → Option ℚ) (ex : ExchangeOracle) (s : ExecState)
    (d : TradeDecision) : ExecState :=
  match executeDecisionBody assets positions prices ex s d with
  | .ok s2 => s2
  | .err s2 => { s2 with events := s2.events ++ ["Execution error " ++ d.asset] }

/-- The whole per-batch execution loop (main.py lines 448-592): fold the
per-decision step over the batch; positions and prices are the snapshots
taken before the loop. -/
def executeBatch (assets : List String) (positions : List Position)
    (prices : String → Option ℚ) (ex : ExchangeOracle) :
    ExecState → List TradeDecision → ExecState
  | s, [] => s
  | s, d :: ds =>
    executeBatch assets positions prices ex
      (executeDecision assets positions prices ex s d) ds

/-- Membership of an asset in `assets_with_positions` (main.py lines
232-238): some position with that coin and nonzero size. -/
def hasLivePosition (positions : List Position) (a : String) : Bool :=
  positions.any (fun p => p.coin == a && |p.szi| > 0)

/-- Membership of an asset in `assets_with_orders` (main.py line 239):
some open order with that coin, truthy coins only. -/
def hasOpenOrderFor (openOrders : List String) (a : String) : Bool :=
  a != "" && openOrders.contains a

/-- The reconciliation sub-protocol (main.py lines 240-255): walk a copy
of the Managed Trade set; assets just traded this iteration are skipped;
an asset with neither a live position nor an open order is dropped and a
`reconcile_close` entry with reason `no_position_no_orders` is appended;
everything else is kept.  Returns the surviving trades and the diary
entries appended, in order. -/
def reconcileTrades (positions : List Position) (openOrders : List String)
    (justTraded : List String) :
    List ActiveTrade → List ActiveTrade × List DiaryEntry
  | [] => ([], [])
  | tr :: rest =>
    let r := reconcileTrades positions openOrders justTraded rest
    if tr.asset ∈ justTraded then (tr :: r.1, r.2)
    else if !hasLivePosition positions tr.asset && !hasOpenOrderFor openOrders tr.asset then
      (r.1, DiaryEntry.reconcileClose tr.asset "no_position_no_orders" :: r.2)
    else (tr :: r.1, r.2)

/-- Whether a provider reply carries pending tool invocations
(`message.get("tool_calls") or []` nonempty, decision_maker.py line 360). -/
def isToolReply : Reply → Bool
  | .ok m => m.hasToolCalls
  | .httpErr _ _ _ => false

/-- Exchange oracle on which every call succeeds, no order ids are
reported and no fill is found; used for concrete evaluations. -/
def exOk : ExchangeOracle :=
  ⟨fun _ => false, fun _ => false, fun _ => false, fun _ => none, fun _ => none, fun _ => false⟩

/-- The state at the start of a fresh run: empty Managed Trade set,
journal, side-effect logs and just-traded set. -/
def emptyExecState : ExecState := ⟨[], [], [], [], [], []⟩

/-- The state of a `StepResult`, whether it completed or raised. -/
def resultState : StepResult → ExecState
  | .ok s => s
  | .err s => s

/-- An iteration of the round-trip loop consumes one unit of fuel on a
tool-carrying reply while tools remain allowed. -/
theorem decideLoop_tool_step (san : String → Option SanMsg) (assets : List String)
    (replies : Nat → Reply) (i fuel : Nat) (aS : Bool)
    (h : isToolReply (replies i) = true) :
    decideLoop san assets replies i (fuel + 1) true aS =
      decideLoop san assets replies (i + 1) fuel true aS := by
  cases hr : replies i with
  | ok m =>
    have hm : m.hasToolCalls = true := by simpa [isToolReply, hr] using h
    simp [decideLoop, hr, hm]
  | httpErr a b c => simp [isToolReply, hr] at h

/-- Claim C5: if every model reply in a decide call carries pending tool
calls, so that all 6 round-trips are spent in the tool loop, `_decide`
returns the tool-loop-cap failsafe batch: reasoning "tool loop cap" and
one hold decision per requested asset, each with rationale
"tool loop cap", even though tool results were collected along the way
(decision_maker.py lines 307, 360-392 and 460-472). -/
theorem c5_tool_loop_cap (san : String → Option SanMsg) (assets : List String)
    (replies : Nat → Reply)
    (h : ∀ j < 6, isToolReply (replies j) = true) :
    decideTrade san assets replies = .ok (toolLoopCapFailsafe assets) ∧
      jLookup (toolLoopCapFailsafe assets) "trade_decisions" =
        some (Json.arr (assets.map (fun a => holdDecision a "tool loop cap"))) := by
  refine ⟨?_, rfl⟩
  have h0 := h 0 (by norm_num)
  have h1 := h 1 (by norm_num)
  have h2 := h 2 (by norm_num)
  have h3 := h 3 (by norm_num)
  have h4 := h 4 (by norm_num)
  have h5 := h 5 (by norm_num)
  unfold decideTrade
  rw [show (6 : Nat) = 5 + 1 from rfl, decideLoop_tool_step san assets replies 0 5 true h0]
  rw [show (5 : Nat) = 4 + 1 from rfl, decideLoop_tool_step san assets replies 1 4 true h1]
  rw [show (4 : Nat) = 3 + 1 from rfl, decideLoop_tool_step san assets replies 2 3 true h2]
  rw [show (3 : Nat) = 2 + 1 from rfl, decideLoop_tool_step san assets replies 3 2 true h3]
  rw [show (2 : Nat) = 1 + 1 from rfl, decideLoop_tool_step san assets replies 4 1 true h4]
  rw [show (1 : Nat) = 0 + 1 from rfl, decideLoop_tool_step san assets replies 5 0 true h5]
  rfl

/-- Witness for C5 at a concrete input: a provider that always answers
with pending tool calls. -/
theorem c5_tool_loop_cap_witness :
    decideTrade (fun _ => none) ["BTC"] (fun _ => Reply.ok ⟨true, none, none⟩) =
        .ok (toolLoopCapFailsafe ["BTC"]) ∧
      jLookup (toolLoopCapFailsafe ["BTC"]) "trade_decisions" =
        some (Json.arr (["BTC"].map (fun a => holdDecision a "tool loop cap"))) :=
  c5_tool_loop_cap (fun _ => none) ["BTC"] (fun _ => Reply.ok ⟨true, none, none⟩)
    (fun _ _ => rfl)

/-- Claim C4: if the terminal model turn's content is unparsable as JSON
(no structured payload, `json.loads` fails) and the sanitizer step yields
no decisions, `_decide` returns the parse-error failsafe: one hold
decision per requested asset in order, each with allocation 0 and
rationale "Parse error" (decision_maker.py lines 394-458). -/
theorem c4_parse_error_failsafe (san : String → Option SanMsg)
    (assets : List String) (replies : Nat → Reply) (m : ModelMessage)
    (cs : String)
    (h0 : replies 0 = Reply.ok m) (htc : m.hasToolCalls = false)
    (hp : isDictOpt m.parsed = false)
    (hc : m.content = some (cs, none)) (hcs : cs ≠ "")
    (hsan : optTruthy (jLookup (sanitizeOutput (san cs)) "trade_decisions") = false) :
    decideTrade san assets replies = .ok (parseErrorFailsafe assets) ∧
      jLookup (parseErrorFailsafe assets) "trade_decisions" =
        some (Json.arr (assets.map (fun a => holdDecision a "Parse error"))) := by
  refine ⟨?_, rfl⟩
  have hterm : decideTrade san assets replies = terminalParse san assets m := by
    unfold decideTrade
    simp [decideLoop, h0, htc]
  rw [hterm]
  unfold terminalParse
  have hec : effContent m.content = (cs, none) := by
    simp [effContent, hc, hcs]
  have hbranch : (match m.parsed with
      | some (Json.obj fields) => processParsed san assets (Json.obj fields) none
      | _ =>
        match (effContent m.content).2 with
        | some j => processParsed san assets j (some (effContent m.content).1)
        | none => .ok (exceptBranch san assets (effContent m.content).1)) =
      .ok (exceptBranch san assets cs) := by
    cases hmp : m.parsed with
    | none => rw [hec]
    | some j =>
      cases j with
      | obj fields => rw [hmp] at hp; simp [isDictOpt] at hp
      | null => rw [hec]
      | bool b => rw [hec]
      | num q => rw [hec]
      | str s => rw [hec]
      | arr l => rw [hec]
  rw [hbranch]
  unfold exceptBranch
  simp [hsan]

/-- Witness for C4 at a concrete input: a terminal reply whose content is
the unparsable text "hello" and a sanitizer that raises. -/
theorem c4_parse_error_failsafe_witness :
    decideTrade (fun _ => none) ["BTC", "ETH"]
        (fun _ => Reply.ok ⟨false, none, some ("hello", none)⟩) =
        .ok (parseErrorFailsafe ["BTC", "ETH"]) ∧
      jLookup (parseErrorFailsafe ["BTC", "ETH"]) "trade_decisions" =
        some (Json.arr (["BTC", "ETH"].map (fun a => holdDecision a "Parse error"))) :=
  c4_parse_error_failsafe (fun _ => none) ["BTC", "ETH"]
    (fun _ => Reply.ok ⟨false, none, some ("hello", none)⟩)
    ⟨false, none, some ("hello", none)⟩ "hello" rfl rfl rfl rfl
    (by decide) rfl

/-- Counterexample to claim C6: when the terminal payload parses to a
dict whose `trade_decisions` is an empty list, `_decide` returns a batch
whose `trade_decisions` list is empty (decision_maker.py lines 411-433:
an empty list is a list, so the normalization loop returns it as is). -/
theorem c6_counterexample :
    decideTrade (fun _ => none) ["BTC"]
      (fun _ => Reply.ok ⟨false, some (Json.obj [("reasoning", Json.str "r"),
        ("summary", Json.str "s"), ("trade_decisions", Json.arr [])]), none⟩) =
    .ok (Json.obj [("reasoning", Json.str "r"), ("summary", Json.str "s"),
      ("trade_decisions", Json.arr [])]) := rfl

/-- A truthy optional JSON value is present. -/
theorem optTruthy_isSome (o : Option Json) (h : optTruthy o = true) :
    o.isSome = true := by
  cases o <;> simp_all [optTruthy]

/-- Every payload the except branch returns carries a `trade_decisions`
key. -/
theorem exceptBranch_key (san : String → Option SanMsg) (assets : List String)
    (content : String) :
    (jLookup (exceptBranch san assets content) "trade_decisions").isSome = true := by
  simp only [exceptBranch]
  split
  · exact optTruthy_isSome _ (by assumption)
  · rfl

/-- Every payload `processParsed` returns carries a `trade_decisions`
key. -/
theorem processParsed_key (san : String → Option SanMsg) (assets : List String)
    (parsed : Json) (c : Option String) (j : Json)
    (h : processParsed san assets parsed c = .ok j) :
    (jLookup j "trade_decisions").isSome = true := by
  unfold processParsed at h
  cases parsed with
  | obj fields =>
    simp only at h
    cases hl : fields.lookup "trade_decisions" with
    | none =>
      rw [hl] at h
      simp only at h
      split at h
      · exact optTruthy_isSome _ (by injection h with h2; rw [← h2]; assumption)
      · injection h with h2
        rw [← h2]
        rfl
    | some v =>
      rw [hl] at h
      cases v with
      | arr items =>
        simp only at h
        cases hn : normalizeDecisions items with
        | some normd =>
          rw [hn] at h
          injection h with h2
          rw [← h2]
          rfl
        | none =>
          rw [hn] at h
          cases c with
          | some cstr =>
            simp only at h
            injection h with h2
            rw [← h2]
            exact exceptBranch_key san assets cstr
          | none => simp at h
      | null =>
        simp only at h
        split at h
        · exact optTruthy_isSome _ (by injection h with h2; rw [← h2]; assumption)
        · injection h with h2; rw [← h2]; rfl
      | bool b =>
        simp only at h
        split at h
        · exact optTruthy_isSome _ (by injection h with h2; rw [← h2]; assumption)
        · injection h with h2; rw [← h2]; rfl
      | num q =>
        simp only at h
        split at h
        · exact optTruthy_isSome _ (by injection h with h2; rw [← h2]; assumption)
        · injection h with h2; rw [← h2]; rfl
      | str s =>
        simp only at h
        split at h
        · exact optTruthy_isSome _ (by injection h with h2; rw [← h2]; assumption)
        · injection h with h2; rw [← h2]; rfl
      | obj fields2 =>
        simp only at h
        split at h
        · exact optTruthy_isSome _ (by injection h with h2; rw [← h2]; assumption)
        · injection h with h2; rw [← h2]; rfl
  | null =>
    simp only at h
    split at h
    · exact optTruthy_isSome _ (by injection h with h2; rw [← h2]; assumption)
    · injection h with h2; rw [← h2]; rfl
  | bool b =>
    simp only at h
    split at h
    · exact optTruthy_isSome _ (by injection h with h2; rw [← h2]; assumption)
    · injection h with h2; rw [← h2]; rfl
  | num q =>
    simp only at h
    split at h
    · exact optTruthy_isSome _ (by injection h with h2; rw [← h2]; assumption)
    · injection h with h2; rw [← h2]; rfl
  | str s =>
    simp only at h
    split at h
    · exact optTruthy_isSome _ (by injection h with h2; rw [← h2]; assumption)
    · injection h with h2; rw [← h2]; rfl
  | arr l =>
    simp only at h
    split at h
    · exact optTruthy_isSome _ (by injection h with h2; rw [← h2]; assumption)
    · injection h with h2; rw [← h2]; rfl

/-- Every payload the terminal parse returns carries a `trade_decisions`
key. -/
theorem terminalParse_key (san : String → Option SanMsg) (assets : List String)
    (m : ModelMessage) (j : Json)
    (h : terminalParse san assets m = .ok j) :
    (jLookup j "trade_decisions").isSome = true := by
  unfold terminalParse at h
  split at h
  · exact processParsed_key san assets _ none j h
  · cases hec : (effContent m.content).2 with
    | some j2 =>
      rw [hec] at h
      exact processParsed_key san assets j2 _ j h
    | none =>
      rw [hec] at h
      injection h with h2
      rw [← h2]
      exact exceptBranch_key san assets _

/-- Every payload the round-trip loop returns carries a `trade_decisions`
key, for any fuel and capability flags. -/
theorem decideLoop_key (san : String → Option SanMsg) (assets : List String)
    (replies : Nat → Reply) :
    ∀ fuel i aT aS j, decideLoop san assets replies i fuel aT aS = .ok j →
      (jLookup j "trade_decisions").isSome = true := by
  intro fuel
  induction fuel with
  | zero =>
    intro i aT aS j h
    injection h with h2
    rw [← h2]
    rfl
  | succ n ih =>
    intro i aT aS j h
    unfold decideLoop at h
    cases hr : replies i with
    | httpErr status xai mstruct =>
      rw [hr] at h
      simp only at h
      split at h
      · exact ih (i + 1) false aS j h
      · split at h
        · exact ih (i + 1) aT false j h
        · exact absurd h (by simp)
    | ok m =>
      rw [hr] at h
      simp only at h
      split at h
      · exact ih (i + 1) aT aS j h
      · exact terminalParse_key san assets m j h

/-- Claim C6 (amended): `_decide` always returns a payload carrying a
`trade_decisions` key, but the list under it may be empty — for instance
when the model's parsed payload holds an empty `trade_decisions` list
(see the counterexample) or when sanitization yields none after an
invalid `trade_decisions` value; the failsafe paths return one hold per
requested asset. -/
theorem c6_amended_key_always_present (san : String → Option SanMsg)
    (assets : List String) (replies : Nat → Reply) (j : Json)
    (h : decideTrade san assets replies = .ok j) :
    (jLookup j "trade_decisions").isSome = true :=
  decideLoop_key san assets replies 6 0 true true j h

/-- Witness for the amended C6 at a concrete input: the parse-error
failsafe carries the key. -/
theorem c6_amended_witness :
    (jLookup (parseErrorFailsafe ["BTC"]) "trade_decisions").isSome = true :=
  c6_amended_key_always_present (fun _ => none) ["BTC"]
    (fun _ => Reply.ok ⟨false, none, some ("hello", none)⟩)
    (parseErrorFailsafe ["BTC"]) rfl

/-- The execution-error wrapper only appends an event: all other fields
of the step's state pass through. -/
theorem executeDecision_orders (assets : List String) (positions : List Position)
    (prices : String → Option ℚ) (ex : ExchangeOracle) (s : ExecState)
    (d : TradeDecision) :
    (executeDecision assets positions prices ex s d).orders =
      (resultState (executeDecisionBody assets positions prices ex s d)).orders := by
  unfold executeDecision resultState
  cases executeDecisionBody assets positions prices ex s d <;> rfl

/-- The market orders after `afterOrder`: unchanged when the market-order
call raises, otherwise exactly one appended order of the given amount
(regardless of the later TP/SL calls). -/
theorem afterOrder_orders (ex : ExchangeOracle) (s : ExecState)
    (preEvents : List String) (d : TradeDecision) (isBuy : Bool)
    (alloc amount price : ℚ) (msg : String) (tr : Bool) :
    (resultState (afterOrder ex s preEvents d isBuy alloc amount price msg tr)).orders =
      (if ex.orderFails d.asset then s.orders
       else s.orders ++ [⟨d.asset, isBuy, amount⟩]) := by
  simp only [afterOrder, resultState]
  split_ifs <;> rfl

/-- A raising `afterOrder` never writes a diary entry: every raise point
precedes the journal write. -/
theorem afterOrder_err_diary (ex : ExchangeOracle) (s : ExecState)
    (preEvents : List String) (d : TradeDecision) (isBuy : Bool)
    (alloc amount price : ℚ) (msg : String) (tr : Bool) (t : ExecState)
    (h : afterOrder ex s preEvents d isBuy alloc amount price msg tr = .err t) :
    t.diary = s.diary := by
  simp only [afterOrder] at h
  split_ifs at h <;>
    first
    | exact StepResult.noConfusion h
    | (injection h with h2; rw [← h2])

/-- A raising decision body never writes a diary entry. -/
theorem executeDecisionBody_err_diary (assets : List String)
    (positions : List Position) (prices : String → Option ℚ)
    (ex : ExchangeOracle) (s : ExecState) (d : TradeDecision) (s2 : ExecState)
    (h : executeDecisionBody assets positions prices ex s d = .err s2) :
    s2.diary = s.diary := by
  simp only [executeDecisionBody] at h
  split at h
  · exact StepResult.noConfusion h
  · split at h
    · split at h
      · exact StepResult.noConfusion h
      · split at h
        · split at h
          · split at h
            · injection h with h2; rw [← h2]
            · exact afterOrder_err_diary _ _ _ _ _ _ _ _ _ _ _ h
          · exact afterOrder_err_diary _ _ _ _ _ _ _ _ _ _ _ h
        · split at h
          · injection h with h2; rw [← h2]
          · exact afterOrder_err_diary _ _ _ _ _ _ _ _ _ _ _ h
    · exact StepResult.noConfusion h

/-- Claim C7: applying a hold decision (for a requested, non-empty asset)
makes no exchange call and leaves the Managed Trade set unchanged; the
state change is exactly one hold journal entry plus log events (main.py
lines 579-589). -/
theorem c7_hold_only_journals (assets : List String) (positions : List Position)
    (prices : String → Option ℚ) (ex : ExchangeOracle) (s : ExecState)
    (d : TradeDecision)
    (hA : d.asset ∈ assets) (hne : d.asset ≠ "") (hact : d.action = "hold") :
    executeDecision assets positions prices ex s d =
      { s with
        events := s.events ++
          (if d.rationale = "" then [] else ["Decision rationale for " ++ d.asset]) ++
          ["Hold " ++ d.asset],
        diary := s.diary ++ [DiaryEntry.hold d.asset d.rationale] } := by
  have h1 : ¬(d.asset = "" ∨ d.asset ∉ assets) := by
    push_neg
    exact ⟨hne, hA⟩
  have h2 : ¬(d.action = "buy" ∨ d.action = "sell") := by
    simp [hact]
  unfold executeDecision
  simp only [executeDecisionBody, if_neg h1, if_neg h2]

/-- Witness for C7 at a concrete input. -/
theorem c7_hold_only_journals_witness :
    executeDecision ["BTC"] [] (fun _ => some 10) exOk emptyExecState
        ⟨"BTC", "hold", 0, none, none, "", "r"⟩ =
      { emptyExecState with
        events := emptyExecState.events ++
          (if ("r" : String) = "" then [] else ["Decision rationale for " ++ "BTC"]) ++
          ["Hold " ++ "BTC"],
        diary := emptyExecState.diary ++ [DiaryEntry.hold "BTC" "r"] } :=
  c7_hold_only_journals ["BTC"] [] (fun _ => some 10) exOk emptyExecState
    ⟨"BTC", "hold", 0, none, none, "", "r"⟩ (by simp) (by decide) rfl

/-- Claim C10: a buy or sell decision with a zero or negative
allocation_usd is skipped silently — no exchange order, no Managed Trade
mutation, and no diary entry; only log events are emitted (main.py lines
461-464). -/
theorem c10_nonpositive_allocation_skips (assets : List String)
    (positions : List Position) (prices : String → Option ℚ)
    (ex : ExchangeOracle) (s : ExecState) (d : TradeDecision)
    (hA : d.asset ∈ assets) (hne : d.asset ≠ "")
    (hact : d.action = "buy" ∨ d.action = "sell")
    (halloc : d.allocation_usd ≤ 0) :
    executeDecision assets positions prices ex s d =
      { s with
        events := s.events ++
          (if d.rationale = "" then [] else ["Decision rationale for " ++ d.asset]) ++
          ["Holding " ++ d.asset ++ " zero or negative allocation"] } := by
  have h1 : ¬(d.asset = "" ∨ d.asset ∉ assets) := by
    push_neg
    exact ⟨hne, hA⟩
  unfold executeDecision
  simp only [executeDecisionBody, if_neg h1, if_pos hact, if_pos halloc]

/-- Witness for C10 at a concrete input. -/
theorem c10_nonpositive_allocation_skips_witness :
    executeDecision ["BTC"] [] (fun _ => some 10) exOk emptyExecState
        ⟨"BTC", "buy", 0, none, none, "", ""⟩ =
      { emptyExecState with
        events := emptyExecState.events ++
          (if ("" : String) = "" then [] else ["Decision rationale for " ++ "BTC"]) ++
          ["Holding " ++ "BTC" ++ " zero or negative allocation"] } :=
  c10_nonpositive_allocation_skips ["BTC"] [] (fun _ => some 10) exOk emptyExecState
    ⟨"BTC", "buy", 0, none, none, "", ""⟩ (by simp) (by decide) (Or.inl rfl) le_rfl

/-- Claim C1: whenever a buy or sell decision targets an asset whose
existing exchange position of signed size S opposes the decision's
direction, any market order the engine submits for it has amount exactly
|S|, regardless of the decision's allocation_usd (main.py lines 477-490:
the close path uses `abs(existing_size)` and ignores the allocation). -/
theorem c1_close_uses_position_size (assets : List String)
    (positions : List Position) (prices : String → Option ℚ)
    (ex : ExchangeOracle) (s : ExecState) (d : TradeDecision) (p : Position)
    (hfind : positions.find? (fun q => q.coin == d.asset) = some p)
    (hopp : (d.action = "buy" ∧ p.szi < 0) ∨ (d.action = "sell" ∧ 0 < p.szi)) :
    ∀ o ∈ (executeDecision assets positions prices ex s d).orders,
      o ∈ s.orders ∨ o.amount = |p.szi| := by
  intro o ho
  have hact : d.action = "buy" ∨ d.action = "sell" := by
    rcases hopp with ⟨h1, _⟩ | ⟨h1, _⟩
    · exact Or.inl h1
    · exact Or.inr h1
  rw [executeDecision_orders] at ho
  by_cases hskip : d.asset = "" ∨ d.asset ∉ assets
  · simp only [executeDecisionBody, if_pos hskip, resultState] at ho
    exact Or.inl ho
  · by_cases halloc : d.allocation_usd ≤ 0
    · simp only [executeDecisionBody, if_neg hskip, if_pos hact, if_pos halloc,
        resultState] at ho
      exact Or.inl ho
    · have hdir : ((d.action == "buy") && decide (0 < p.szi) ||
          (!(d.action == "buy") && !decide (0 < p.szi))) = false := by
        rcases hopp with ⟨hb, hneg⟩ | ⟨hs, hpos⟩
        · simp [hb, not_lt.mpr (le_of_lt hneg)]
        · simp [hs, hpos]
      simp only [executeDecisionBody, if_neg hskip, if_pos hact, if_neg halloc,
        hfind, hdir, Bool.false_eq_true, if_false] at ho
      rw [afterOrder_orders] at ho
      by_cases hof : ex.orderFails d.asset
      · rw [if_pos hof] at ho
        exact Or.inl ho
      · rw [if_neg hof] at ho
        rcases List.mem_append.mp ho with hmem | hmem
        · exact Or.inl hmem
        · right
          rw [List.mem_singleton.mp hmem]

/-- Witness for C1 at a concrete input: an existing short of size -2 and
a buy decision with allocation 5 close with amount 2 = |-2|. -/
theorem c1_close_uses_position_size_witness :
    (Order.mk "BTC" true 2) ∈ emptyExecState.orders ∨
      (Order.mk "BTC" true 2).amount = |(-2 : ℚ)| :=
  c1_close_uses_position_size ["BTC"] [⟨"BTC", -2⟩] (fun _ => some 10) exOk
    emptyExecState ⟨"BTC", "buy", 5, none, none, "", ""⟩ ⟨"BTC", -2⟩ rfl
    (Or.inl ⟨rfl, by norm_num⟩) (Order.mk "BTC" true 2)
    (by
      rw [show (executeDecision ["BTC"] [⟨"BTC", -2⟩] (fun _ => some 10) exOk
        emptyExecState ⟨"BTC", "buy", 5, none, none, "", ""⟩).orders =
          [Order.mk "BTC" true 2] from rfl]
      exact List.mem_singleton.mpr rfl)

/-- Counterexample to claim C2: the execution path has no stale-price
guard.  With a price that resolves to 0 (asset missing from the price
map) and an existing opposite-direction position, the engine still
performs an exchange call — it submits a close order of size |S| — and
journals an ordinary trade entry with entry price 0, not a "stale price"
no-op (main.py lines 453-499: `asset_prices.get(asset, 0)` is never
checked for positivity). -/
theorem c2_counterexample :
    (executeDecision ["BTC"] [⟨"BTC", -2⟩] (fun _ => none) exOk emptyExecState
        ⟨"BTC", "buy", 20, none, none, "", ""⟩).orders = [⟨"BTC", true, 2⟩] ∧
      (executeDecision ["BTC"] [⟨"BTC", -2⟩] (fun _ => none) exOk emptyExecState
        ⟨"BTC", "buy", 20, none, none, "", ""⟩).diary =
        [DiaryEntry.trade "BTC" "buy" 20 2 0 none none none none "" "" false] :=
  ⟨rfl, rfl⟩

/-- Claim C2 (amended): there is no stale-price journal entry.  For a buy
or sell decision on a requested asset with positive allocation whose
price resolves to 0 and whose asset has no opposite-direction position
(so the open/add division `alloc/price` is reached), the
`ZeroDivisionError` is caught by the per-asset handler: no exchange call
is made, no diary entry is written, the Managed Trade set is untouched,
and only an execution-error event is logged before the loop continues;
with an existing opposite-direction position the engine instead submits
a close order despite the stale price (see the counterexample). -/
theorem c2_amended_zero_price_error (assets : List String)
    (positions : List Position) (prices : String → Option ℚ)
    (ex : ExchangeOracle) (s : ExecState) (d : TradeDecision)
    (hA : d.asset ∈ assets) (hne : d.asset ≠ "")
    (hact : d.action = "buy" ∨ d.action = "sell")
    (halloc : 0 < d.allocation_usd)
    (hzero : (prices d.asset).getD 0 = 0)
    (hpath : ∀ p, positions.find? (fun q => q.coin == d.asset) = some p →
      (d.action = "buy" ∧ 0 < p.szi) ∨ (d.action = "sell" ∧ p.szi < 0)) :
    executeDecision assets positions prices ex s d =
      { s with
        events := s.events ++
          (if d.rationale = "" then [] else ["Decision rationale for " ++ d.asset]) ++
          (if d.allocation_usd < 12 then ["Bumped allocation to meet exchange minimum"] else []) ++
          ["Execution error " ++ d.asset] } := by
  have h1 : ¬(d.asset = "" ∨ d.asset ∉ assets) := by
    push_neg
    exact ⟨hne, hA⟩
  have h3 : ¬d.allocation_usd ≤ 0 := not_le.mpr halloc
  unfold executeDecision
  cases hf : positions.find? (fun q => q.coin == d.asset) with
  | none =>
    simp only [executeDecisionBody, if_neg h1, if_pos hact, if_neg h3, hf,
      if_pos hzero]
  | some p =>
    have hdir : ((d.action == "buy") && decide (0 < p.szi) ||
        (!(d.action == "buy") && !decide (0 < p.szi))) = true := by
      rcases hpath p hf with ⟨hb, hpos⟩ | ⟨hs, hneg⟩
      · simp [hb, hpos]
      · simp [hs, not_lt.mpr (le_of_lt hneg)]
    simp only [executeDecisionBody, if_neg h1, if_pos hact, if_neg h3, hf,
      hdir, if_true, if_pos hzero]

/-- Witness for the amended C2 at a concrete input: a buy with no
position and a missing price errors without ordering or journaling. -/
theorem c2_amended_zero_price_error_witness :
    executeDecision ["BTC"] [] (fun _ => none) exOk emptyExecState
        ⟨"BTC", "buy", 20, none, none, "", ""⟩ =
      { emptyExecState with
        events := emptyExecState.events ++
          (if ("" : String) = "" then [] else ["Decision rationale for " ++ "BTC"]) ++
          (if (20 : ℚ) < 12 then ["Bumped allocation to meet exchange minimum"] else []) ++
          ["Execution error " ++ "BTC"] } :=
  c2_amended_zero_price_error ["BTC"] [] (fun _ => none) exOk emptyExecState
    ⟨"BTC", "buy", 20, none, none, "", ""⟩ (by simp) (by decide) (Or.inl rfl)
    (by norm_num) rfl (fun p hp => nomatch hp)

/-- Counterexample to claim C3: an allocation_usd of 5 (below 12) on an
asset with an existing opposite-direction position of size -2 at price 10
is NOT submitted with notional 12 — the submitted order has amount 2 (the
position size), not 12/10 (main.py lines 487-490: the close path ignores
the clamped allocation entirely). -/
theorem c3_counterexample :
    (executeDecision ["BTC"] [⟨"BTC", -2⟩] (fun _ => some 10) exOk emptyExecState
        ⟨"BTC", "buy", 5, none, none, "", ""⟩).orders = [⟨"BTC", true, 2⟩] ∧
      (2 : ℚ) ≠ 12 / 10 :=
  ⟨rfl, by norm_num⟩

/-- Claim C3 (amended): the clamp applies on the open and add paths only.
For a buy or sell decision on a requested asset with positive
allocation_usd, a nonzero resolved price, no existing opposite-direction
position, and a successful market-order call, the submitted order's
amount is `(max(alloc, 12)) / price`: exactly 12/price when the
allocation is below 12, alloc/price otherwise (main.py lines 466-468 and
483-494).  Zero or negative allocations are skipped without a submission,
and opposite-direction positions are closed with amount |S| instead. -/
theorem c3_amended_clamp_open_add (assets : List String)
    (positions : List Position) (prices : String → Option ℚ)
    (ex : ExchangeOracle) (s : ExecState) (d : TradeDecision) (pr : ℚ)
    (hA : d.asset ∈ assets) (hne : d.asset ≠ "")
    (hact : d.action = "buy" ∨ d.action = "sell")
    (halloc : 0 < d.allocation_usd)
    (hp : prices d.asset = some pr) (hpr : pr ≠ 0)
    (hpath : ∀ p, positions.find? (fun q => q.coin == d.asset) = some p →
      (d.action = "buy" ∧ 0 < p.szi) ∨ (d.action = "sell" ∧ p.szi < 0))
    (hok : ex.orderFails d.asset = false) :
    (executeDecision assets positions prices ex s d).orders =
      s.orders ++ [⟨d.asset, d.action == "buy",
        (if d.allocation_usd < 12 then (12 : ℚ) else d.allocation_usd) / pr⟩] := by
  have h1 : ¬(d.asset = "" ∨ d.asset ∉ assets) := by
    push_neg
    exact ⟨hne, hA⟩
  have h3 : ¬d.allocation_usd ≤ 0 := not_le.mpr halloc
  have hgd : (prices d.asset).getD 0 = pr := by rw [hp]; rfl
  have hz : ¬(prices d.asset).getD 0 = 0 := by rw [hgd]; exact hpr
  rw [executeDecision_orders]
  cases hf : positions.find? (fun q => q.coin == d.asset) with
  | none =>
    simp only [executeDecisionBody, if_neg h1, if_pos hact, if_neg h3, hf,
      if_neg hz]
    rw [afterOrder_orders, if_neg (by rw [hok]; exact Bool.false_ne_true), hgd]
  | some p =>
    have hdir : ((d.action == "buy") && decide (0 < p.szi) ||
        (!(d.action == "buy") && !decide (0 < p.szi))) = true := by
      rcases hpath p hf with ⟨hb, hpos⟩ | ⟨hs, hneg⟩
      · simp [hb, hpos]
      · simp [hs, not_lt.mpr (le_of_lt hneg)]
    simp only [executeDecisionBody, if_neg h1, if_pos hact, if_neg h3, hf,
      hdir, if_true, if_neg hz]
    rw [afterOrder_orders, if_neg (by rw [hok]; exact Bool.false_ne_true), hgd]

/-- Witness for the amended C3 at a concrete input: allocation 5 on an
empty book at price 10 is submitted with amount 12/10. -/
theorem c3_amended_clamp_open_add_witness :
    (executeDecision ["BTC"] [] (fun _ => some 10) exOk emptyExecState
        ⟨"BTC", "buy", 5, none, none, "", ""⟩).orders =
      emptyExecState.orders ++ [⟨"BTC", ("buy" == "buy"),
        (if (5 : ℚ) < 12 then (12 : ℚ) else 5) / 10⟩] :=
  c3_amended_clamp_open_add ["BTC"] [] (fun _ => some 10) exOk emptyExecState
    ⟨"BTC", "buy", 5, none, none, "", ""⟩ 10 (by simp) (by decide) (Or.inl rfl)
    (by norm_num) rfl (by norm_num) (fun p hp => nomatch hp) rfl

/-- Reconciliation never adds an entry: every surviving Managed Trade was
already present. -/
theorem reconcileTrades_subset (positions : List Position)
    (openOrders justTraded : List String) (trades : List ActiveTrade) :
    ∀ t ∈ (reconcileTrades positions openOrders justTraded trades).1,
      t ∈ trades := by
  induction trades with
  | nil => intro t ht; simp [reconcileTrades] at ht
  | cons tr rest ih =>
    intro t ht
    by_cases h1 : tr.asset ∈ justTraded
    · simp only [reconcileTrades, if_pos h1] at ht
      rcases List.mem_cons.mp ht with rfl | hm
      · exact List.mem_cons_self _ _
      · exact List.mem_cons_of_mem _ (ih t hm)
    · by_cases h2 : (!hasLivePosition positions tr.asset &&
          !hasOpenOrderFor openOrders tr.asset) = true
      · simp only [reconcileTrades, if_neg h1, if_pos h2] at ht
        exact List.mem_cons_of_mem _ (ih t ht)
      · simp only [reconcileTrades, if_neg h1, if_neg h2] at ht
        rcases List.mem_cons.mp ht with rfl | hm
        · exact List.mem_cons_self _ _
        · exact List.mem_cons_of_mem _ (ih t hm)

/-- Every Managed Trade for an untraded asset with neither a live
position nor an open order is gone after the pass. -/
theorem reconcileTrades_removes (positions : List Position)
    (openOrders justTraded : List String) (trades : List ActiveTrade)
    (X : String)
    (hjt : X ∉ justTraded) (hpos : hasLivePosition positions X = false)
    (hord : hasOpenOrderFor openOrders X = false) :
    ∀ t ∈ (reconcileTrades positions openOrders justTraded trades).1,
      t.asset ≠ X := by
  induction trades with
  | nil => intro t ht; simp [reconcileTrades] at ht
  | cons tr rest ih =>
    intro t ht
    by_cases h1 : tr.asset ∈ justTraded
    · simp only [reconcileTrades, if_pos h1] at ht
      rcases List.mem_cons.mp ht with rfl | hm
      · intro hX
        rw [hX] at h1
        exact hjt h1
      · exact ih t hm
    · by_cases h2 : (!hasLivePosition positions tr.asset &&
          !hasOpenOrderFor openOrders tr.asset) = true
      · simp only [reconcileTrades, if_neg h1, if_pos h2] at ht
        exact ih t ht
      · simp only [reconcileTrades, if_neg h1, if_neg h2] at ht
        rcases List.mem_cons.mp ht with rfl | hm
        · intro hX
          apply h2
          rw [hX, hpos, hord]
          rfl
        · exact ih t hm

/-- The pass journals the removal of an untraded, position-less and
order-less managed asset. -/
theorem reconcileTrades_journal (positions : List Position)
    (openOrders justTraded : List String) (trades : List ActiveTrade)
    (X : String)
    (hjt : X ∉ justTraded) (hpos : hasLivePosition positions X = false)
    (hord : hasOpenOrderFor openOrders X = false)
    (hmem : ∃ tr ∈ trades, tr.asset = X) :
    DiaryEntry.reconcileClose X "no_position_no_orders" ∈
      (reconcileTrades positions openOrders justTraded trades).2 := by
  induction trades with
  | nil => simp at hmem
  | cons tr rest ih =>
    rcases hmem with ⟨tr2, hm, hX⟩
    rcases List.mem_cons.mp hm with rfl | hm2
    · have h1 : tr2.asset ∉ justTraded := by rw [hX]; exact hjt
      have h2 : (!hasLivePosition positions tr2.asset &&
          !hasOpenOrderFor openOrders tr2.asset) = true := by
        rw [hX, hpos, hord]
        rfl
      simp only [reconcileTrades, if_neg h1, if_pos h2]
      rw [← hX]
      exact List.mem_cons_self _ _
    · have htail := ih ⟨tr2, hm2, hX⟩
      by_cases h1 : tr.asset ∈ justTraded
      · simp only [reconcileTrades, if_pos h1]
        exact htail
      · by_cases h2 : (!hasLivePosition positions tr.asset &&
            !hasOpenOrderFor openOrders tr.asset) = true
        · simp only [reconcileTrades, if_neg h1, if_pos h2]
          exact List.mem_cons_of_mem _ htail
        · simp only [reconcileTrades, if_neg h1, if_neg h2]
          exact htail

/-- Claim C8: for a managed asset X outside the cycle's traded set for
which the exchange reports neither an open position nor an open order,
one reconciliation pass removes every Managed Trade for X and appends a
journal entry with reason "no_position_no_orders"; the pass never adds a
Managed Trade (main.py lines 230-257). -/
theorem c8_reconciliation_drops_stale (positions : List Position)
    (openOrders justTraded : List String) (trades : List ActiveTrade)
    (X : String)
    (hmem : ∃ tr ∈ trades, tr.asset = X)
    (hjt : X ∉ justTraded)
    (hpos : hasLivePosition positions X = false)
    (hord : hasOpenOrderFor openOrders X = false) :
    (∀ t ∈ (reconcileTrades positions openOrders justTraded trades).1,
        t.asset ≠ X) ∧
      DiaryEntry.reconcileClose X "no_position_no_orders" ∈
        (reconcileTrades positions openOrders justTraded trades).2 ∧
      (∀ t ∈ (reconcileTrades positions openOrders justTraded trades).1,
        t ∈ trades) :=
  ⟨reconcileTrades_removes positions openOrders justTraded trades X hjt hpos hord,
   reconcileTrades_journal positions openOrders justTraded trades X hjt hpos hord hmem,
   reconcileTrades_subset positions openOrders justTraded trades⟩

/-- Witness for C8 at a concrete input: a stale BTC trade is journaled
away in one pass. -/
theorem c8_reconciliation_drops_stale_witness :
    DiaryEntry.reconcileClose "BTC" "no_position_no_orders" ∈
      (reconcileTrades [] [] [] [⟨"BTC", true, 1, 10, none, none, ""⟩]).2 :=
  (c8_reconciliation_drops_stale [] [] [] [⟨"BTC", true, 1, 10, none, none, ""⟩]
    "BTC" ⟨⟨"BTC", true, 1, 10, none, none, ""⟩, List.mem_singleton.mpr rfl, rfl⟩
    (by simp) rfl rfl).2.1

/-- Counterexample to claim C9: an exception during one asset's execution
is caught and logged but NOT journaled.  Executing a two-decision batch
whose first decision raises (missing price, division by zero) leaves no
diary entry at all for that asset — only the sibling hold's entry — while
the event log records the execution error (main.py lines 590-592: the
`except` clause only logs, it writes nothing to the diary). -/
theorem c9_counterexample :
    (executeBatch ["BTC", "ETH"] [] (fun a => if a == "ETH" then some 10 else none)
        exOk emptyExecState
        [⟨"BTC", "buy", 20, none, none, "", ""⟩,
         ⟨"ETH", "hold", 0, none, none, "", "r"⟩]).diary =
        [DiaryEntry.hold "ETH" "r"] ∧
      (executeBatch ["BTC", "ETH"] [] (fun a => if a == "ETH" then some 10 else none)
        exOk emptyExecState
        [⟨"BTC", "buy", 20, none, none, "", ""⟩,
         ⟨"ETH", "hold", 0, none, none, "", "r"⟩]).events =
        ["Execution error BTC", "Decision rationale for ETH", "Hold ETH"] :=
  ⟨rfl, rfl⟩

/-- Claim C9 (amended): an exception raised while executing one asset's
decision is caught and logged for that asset only, and the remaining
decisions of the batch are still processed from the partial state — but
no journal entry is written for the failed decision (every raise point
precedes the diary write, and the except clause only logs). -/
theorem c9_amended_error_isolated (assets : List String)
    (positions : List Position) (prices : String → Option ℚ)
    (ex : ExchangeOracle) (s : ExecState) (d : TradeDecision)
    (ds : List TradeDecision) (s2 : ExecState)
    (herr : executeDecisionBody assets positions prices ex s d = .err s2) :
    s2.diary = s.diary ∧
      executeDecision assets positions prices ex s d =
        { s2 with events := s2.events ++ ["Execution error " ++ d.asset] } ∧
      executeBatch assets positions prices ex s (d :: ds) =
        executeBatch assets positions prices ex
          { s2 with events := s2.events ++ ["Execution error " ++ d.asset] } ds := by
  have hstep : executeDecision assets positions prices ex s d =
      { s2 with events := s2.events ++ ["Execution error " ++ d.asset] } := by
    unfold executeDecision
    rw [herr]
  refine ⟨executeDecisionBody_err_diary assets positions prices ex s d s2 herr,
    hstep, ?_⟩
  show executeBatch assets positions prices ex
      (executeDecision assets positions prices ex s d) ds = _
  rw [hstep]

/-- Witness for the amended C9 at a concrete input. -/
theorem c9_amended_error_isolated_witness :
    emptyExecState.diary = emptyExecState.diary ∧
      executeDecision ["BTC"] [] (fun _ => none) exOk emptyExecState
          ⟨"BTC", "buy", 20, none, none, "", ""⟩ =
        { emptyExecState with
          events := emptyExecState.events ++ ["Execution error " ++ "BTC"] } ∧
      executeBatch ["BTC"] [] (fun _ => none) exOk emptyExecState
          [⟨"BTC", "buy", 20, none, none, "", ""⟩,
           ⟨"BTC", "hold", 0, none, none, "", "r"⟩] =
        executeBatch ["BTC"] [] (fun _ => none) exOk
          { emptyExecState with
            events := emptyExecState.events ++ ["Execution error " ++ "BTC"] }
          [⟨"BTC", "hold", 0, none, none, "", "r"⟩] :=
  c9_amended_error_isolated ["BTC"] [] (fun _ => none) exOk emptyExecState
    ⟨"BTC", "buy", 20, none, none, "", ""⟩
    [⟨"BTC", "hold", 0, none, none, "", "r"⟩] emptyExecState rfl

end Rez
